import Mathlib

/-!
Verification of the post-image extraction pipeline of
`download-photos.ts` (Social Schools photos downloader).

The TypeScript source is shallowly embedded: pure helpers become Lean
functions, the browser page interactions are modelled by explicit state
records (the carousel/lightbox as functions of the number of performed
"navigate right" clicks), exceptions become explicit error results, and
the unbounded `do … while` loop is run on explicit fuel, with fuel
exhaustion as its own result constructor.
-/

/-- A serialized accessibility tree node (puppeteer `SerializedAXNode`):
role, optional accessible name, and the child nodes in document order. -/
inductive AXNode where
  | mk (role : String) (name : Option String) (children : List AXNode)

def AXNode.role : AXNode → String
  | .mk r _ _ => r

def AXNode.name : AXNode → Option String
  | .mk _ n _ => n

def AXNode.children : AXNode → List AXNode
  | .mk _ _ cs => cs

mutual

/-- Embedding of `findAccessibilityTreeNode` from `download-photos.ts`:
if the predicate holds at the root, return the root; otherwise recurse
into the children in order, returning the first successful result, and
`none` (JS `undefined`) if every recursive call fails. -/
def findAccessibilityTreeNode : AXNode → (AXNode → Bool) → Option AXNode
  | .mk role nm cs, predicate =>
    if predicate (.mk role nm cs) then some (.mk role nm cs)
    else findAccessibilityTreeNodeInList cs predicate

/-- The `for (const child of tree.children)` loop of
`findAccessibilityTreeNode`: first successful recursive result wins. -/
def findAccessibilityTreeNodeInList : List AXNode → (AXNode → Bool) → Option AXNode
  | [], _ => none
  | child :: rest, predicate =>
    match findAccessibilityTreeNode child predicate with
    | some result => some result
    | none => findAccessibilityTreeNodeInList rest predicate

end

mutual

/-- Modelled from the spec: the pre-order (node before children, children
in document order) depth-first listing of an accessibility tree, used to
state what "first node in pre-order DFS" means. -/
def preorder : AXNode → List AXNode
  | .mk role nm cs => .mk role nm cs :: preorderList cs

/-- Pre-order listing of a forest, in document order. -/
def preorderList : List AXNode → List AXNode
  | [] => []
  | child :: rest => preorder child ++ preorderList rest

end

/-- Does `pat` occur at the head of `s`? (character-list version). -/
def startsWithChars : List Char → List Char → Bool
  | [], _ => true
  | _ :: _, [] => false
  | a :: as, b :: bs => a == b && startsWithChars as bs

/-- Does `pat` occur anywhere in `s`? Used to embed the substring regexes
of `download-photos.ts` (`/\.(jpg|png|mp4|mov)/` and `/navigateright/i`),
which have no anchors or classes, so matching is plain substring search. -/
def hasSubstring (s pat : String) : Bool :=
  (List.range (s.data.length + 1)).any fun i => startsWithChars pat.data (s.data.drop i)

/-- The predicate passed to `findAccessibilityTreeNode` at line 190 of
`download-photos.ts`: `n.role === 'button' && !!n.name?.match(/\.(jpg|png|mp4|mov)/)`. -/
def isMediaPreviewButton (n : AXNode) : Bool :=
  n.role == "button" &&
    (match n.name with
     | none => false
     | some nm =>
       hasSubstring nm ".jpg" || hasSubstring nm ".png" ||
       hasSubstring nm ".mp4" || hasSubstring nm ".mov")

/-- The nav-button test at line 205: `html.match(/navigateright/i)` on the
button's `innerHTML` (case-insensitive, hence the `toLower`). -/
def matchesNavRight (html : String) : Bool :=
  hasSubstring (String.mk (html.data.map Char.toLower)) "navigateright"

/-- Embedding of `asyncFind` from `lib/utils.ts`: first element satisfying
the predicate, in order. -/
def asyncFind {α : Type} (array : List α) (predicate : α → Bool) : Option α :=
  match array with
  | [] => none
  | item :: rest => if predicate item then some item else asyncFind rest predicate

/-- The currently displayed media element of the lightbox: its `src`
property (`""` when the attribute is absent, as for a `<video>` with only
nested sources) and the `src` of a nested `<source>` element if one exists. -/
structure MediaElem where
  src : String
  sourceChild : Option String

/-- Lines 221-229 of `download-photos.ts`: take the direct `src` if truthy,
otherwise the nested `source` element's `src`; throw when neither exists. -/
def inferMediaSrc (m : MediaElem) : Except String String :=
  if m.src ≠ "" then Except.ok m.src
  else
    match m.sourceChild with
    | none => Except.error "Cannot infer image or video source URL."
    | some s => Except.ok s

/-- The opened lightbox as seen by the walker loop, as a function of the
number of "navigate right" clicks performed so far: the buttons found in
it (by `innerHTML`), the media element currently displayed, and the nav
button's `disabled` property. -/
structure Lightbox where
  buttons : List String
  mediaAt : Nat → Option MediaElem
  disabled : Nat → Bool

/-- Result of a (fuel-bounded) run of the walker: normal return with the
collected `mediaSources` and the number of performed clicks, a thrown
exception with the sources collected before it, or fuel exhaustion
(the `do … while` loop still running). -/
inductive WalkResult where
  | ok (mediaSources : List String) (clicks : Nat)
  | err (msg : String) (mediaSources : List String)
  | hang
deriving DecidableEq, Repr

/-- The `do { … } while (!disabled)` loop of `scrapePostForImages`
(lines 212-234), on explicit fuel. Each iteration reads the current media
element, resolves its source URL (throwing if impossible), appends it,
clicks the nav button (so the click counter advances), then re-reads the
button's `disabled` property and exits normally when it is set. -/
def walkLoop (lb : Lightbox) : Nat → Nat → List String → WalkResult
  | 0, _, _ => WalkResult.hang
  | fuel + 1, clicks, acc =>
    match lb.mediaAt clicks with
    | none => WalkResult.err "No media element found in lightbox." acc
    | some m =>
      match inferMediaSrc m with
      | Except.error e => WalkResult.err e acc
      | Except.ok src =>
        if lb.disabled (clicks + 1) then WalkResult.ok (acc ++ [src]) (clicks + 1)
        else walkLoop lb fuel (clicks + 1) (acc ++ [src])

/-- A rendered post page: the accessibility snapshot (`none` models a null
snapshot, which throws) and the lightbox that appears after clicking the
preview (`none` models the `waitForSelector` timeout, which throws). -/
structure PostPage where
  snapshot : Option AXNode
  lightbox : Option Lightbox

/-- Embedding of `scrapePostForImages` (lines 174-235): take the snapshot,
search it for the first media-preview button, return an empty source list
when none exists, otherwise open the lightbox, require a nav-right button
inside it, and run the carousel loop. -/
def scrapePostForImages (page : PostPage) (fuel : Nat) : WalkResult :=
  match page.snapshot with
  | none => WalkResult.err "Cannot infer accessibility tree." []
  | some snapshot =>
    match findAccessibilityTreeNode snapshot isMediaPreviewButton with
    | none => WalkResult.ok [] 0
    | some _ =>
      match page.lightbox with
      | none => WalkResult.err "Timeout waiting for lightbox." []
      | some lb =>
        match asyncFind lb.buttons matchesNavRight with
        | none => WalkResult.err "No right navigation button found in lightbox." []
        | some _ => walkLoop lb fuel 0 []

/-- A carousel of the given source URLs whose nav-right control reports
`disabled` exactly when the last item is displayed (the model fixed by the
specification): a click advances the carousel when the control is enabled
and does nothing otherwise, so the item displayed after `n` clicks is
`min n (length - 1)`. -/
def simpleCarousel (srcs : List String) : Lightbox where
  buttons := ["NavigateRight"]
  mediaAt := fun clicks => (srcs[min clicks (srcs.length - 1)]?).map fun s => ⟨s, none⟩
  disabled := fun clicks => decide (srcs.length - 1 ≤ clicks)

/-- A post page holding one media-preview button and the `simpleCarousel`
over the given sources. -/
def simplePostPage (srcs : List String) : PostPage where
  snapshot := some (AXNode.mk "button" (some "IMG_0001.jpg") [])
  lightbox := some (simpleCarousel srcs)

/-- One post descriptor's behaviour under the orchestrator, at the
granularity the orchestrator observes: the outcome of its walk (collected
sources, or a thrown exception) and of its download phase. -/
structure PostSpec where
  scrape : Except String (List String)
  download : Except String Unit

/-- Observable orchestrator events: the walk of post `idx` and the
download step of post `idx`. -/
inductive Ev where
  | walk (idx : Nat)
  | download (idx : Nat)
deriving DecidableEq, Repr

/-- Embedding of the `for (const link of links) { await scrapePostForImages…;
await downloadImages…; }` loop of `main` (lines 33-36), whose only
try/catch sits around the whole loop (lines 20-40): returns the event
trace, the per-post collected sources of the posts whose iteration
completed, and the first uncaught exception, which stops the loop. -/
def runPosts : List PostSpec → Nat → List Ev × List (List String) × Option String
  | [], _ => ([], [], none)
  | p :: ps, idx =>
    match p.scrape with
    | Except.error e => ([Ev.walk idx], [], some e)
    | Except.ok srcs =>
      match p.download with
      | Except.error e => ([Ev.walk idx, Ev.download idx], [srcs], some e)
      | Except.ok _ =>
        let rest := runPosts ps (idx + 1)
        (Ev.walk idx :: Ev.download idx :: rest.1, srcs :: rest.2.1, rest.2.2)

/-- The surrounding `main` (lines 15-48): the catch around the loop logs
the exception and sets the exit status to 1; otherwise it stays 0. -/
def mainModel (posts : List PostSpec) : List Ev × List (List String) × Nat :=
  let r := runPosts posts 0
  (r.1, r.2.1, if r.2.2.isSome then 1 else 0)

/-- True when every remaining event is a download. -/
def allDownloads : List Ev → Bool
  | [] => true
  | Ev.download _ :: rest => allDownloads rest
  | Ev.walk _ :: _ => false

/-- Modelled from the spec: a trace is two-phase when every walk event
precedes every download event (no download precedes a later walk). -/
def isTwoPhase : List Ev → Bool
  | [] => true
  | Ev.walk _ :: rest => isTwoPhase rest
  | Ev.download _ :: rest => allDownloads rest

/-- The per-post interleaved trace `walk i, download i, walk (i+1), …`
for `n` posts starting at index `i`. -/
def interleavedTrace : Nat → Nat → List Ev
  | _, 0 => []
  | idx, n + 1 => Ev.walk idx :: Ev.download idx :: interleavedTrace (idx + 1) n

/-- The sources each post's walk would collect on success ( `[]` for a
post whose walk throws). -/
def collectedSources (ps : List PostSpec) : List (List String) :=
  ps.map fun q => match q.scrape with | Except.ok s => s | Except.error _ => []

/-- `DISALLOWED_PATH_CHARS` from line 9 of `download-photos.ts`:
the regex class `[<>:"/\\|?*]`. -/
def DISALLOWED_PATH_CHARS : List Char :=
  ['<', '>', ':', '"', '/', '\\', '|', '?', '*']

/-- `.replace(/ *$/, '')`: remove every trailing space character. -/
def trimTrailingSpaces (s : String) : String :=
  String.mk ((s.data.reverse.dropWhile fun c => c == ' ').reverse)

/-- `.replaceAll(DISALLOWED_PATH_CHARS, ' ')`: each disallowed character
becomes a single space. -/
def replaceDisallowed (s : String) : String :=
  String.mk (s.data.map fun c => if c ∈ DISALLOWED_PATH_CHARS then ' ' else c)

/-- The output directory name computed at lines 255-258: the template
`` `${isoDateOnly} ${link.messageId} ${link.subject}` `` with trailing
spaces removed first and the disallowed characters replaced second. -/
def groupName (isoDateOnly messageId subject : String) : String :=
  replaceDisallowed (trimTrailingSpaces (isoDateOnly ++ " " ++ messageId ++ " " ++ subject))

/-- An association-list file system: path to file contents. -/
structure FileSystem where
  files : List (String × String)

/-- First binding of a path in the association list. -/
def fsFind : List (String × String) → String → Option String
  | [], _ => none
  | (k, v) :: rest, p => if k = p then some v else fsFind rest p

/-- `fs.existsSync` on the model file system. -/
def fsExists (fs : FileSystem) (p : String) : Bool :=
  (fsFind fs.files p).isSome

/-- Scan the characters, restarting the accumulator after each `/`, so
that the final accumulator is the component after the last `/`. -/
def basenameAux : List Char → List Char → List Char
  | [], acc => acc.reverse
  | c :: rest, acc =>
    if c = '/' then basenameAux rest [] else basenameAux rest (c :: acc)

/-- `path.basename` on a URL pathname: the component after the last `/`. -/
def basename (pathname : String) : String :=
  String.mk (basenameAux pathname.data [])

/-- Observable events of the download phase: the HTTP GET for a source,
a file write, and the EXIF backfill call. -/
inductive DlEv where
  | httpGet (url : String)
  | fileWrite (path : String)
  | exifBackfill (path : String)
deriving DecidableEq, Repr

/-- One iteration of the `for (const mediaSource of link.mediaSources)`
loop of `downloadImages` (lines 263-294): the HTTP GET is issued first,
unconditionally; then, if the target path already exists, the write is
skipped, else the response is written; EXIF backfill runs in both cases.
`fetch` abstracts the network and `urlPathname` the `new URL(…).pathname`
parser. -/
def downloadOne (fetch urlPathname : String → String) (outputDir : String)
    (fs : FileSystem) (mediaSource : String) : FileSystem × List DlEv :=
  let content := fetch mediaSource
  let filePath := outputDir ++ "/" ++ basename (urlPathname mediaSource)
  if fsExists fs filePath then
    (fs, [DlEv.httpGet mediaSource, DlEv.exifBackfill filePath])
  else
    (⟨(filePath, content) :: fs.files⟩,
     [DlEv.httpGet mediaSource, DlEv.fileWrite filePath, DlEv.exifBackfill filePath])

/-- The whole loop of `downloadImages` over a descriptor's `mediaSources`. -/
def downloadImagesLoop (fetch urlPathname : String → String) (outputDir : String) :
    FileSystem → List String → FileSystem × List DlEv
  | fs, [] => (fs, [])
  | fs, src :: rest =>
    let step := downloadOne fetch urlPathname outputDir fs src
    let more := downloadImagesLoop fetch urlPathname outputDir step.1 rest
    (more.1, step.2 ++ more.2)

/-- A single-item lightbox with no nav-right button among its buttons. -/
def noNavCarousel : Lightbox :=
  ⟨["CloseButton"], fun _ => some ⟨"um.jpg", none⟩, fun _ => false⟩

/-- A lightbox whose nav control reports disabled from the second click on. -/
def lbEnding : Lightbox :=
  ⟨["NavigateRight"], fun _ => some ⟨"s.jpg", none⟩, fun n => decide (2 ≤ n)⟩

/-- A lightbox whose nav control never reports disabled. -/
def lbNeverDisabled : Lightbox :=
  ⟨["NavigateRight"], fun _ => some ⟨"s.jpg", none⟩, fun _ => false⟩

mutual

theorem findAccessibilityTreeNode_eq_find? (tree : AXNode) (p : AXNode → Bool) :
    findAccessibilityTreeNode tree p = (preorder tree).find? p := by
  match tree with
  | .mk role nm cs =>
    rw [findAccessibilityTreeNode, preorder, List.find?]
    cases hp : p (AXNode.mk role nm cs) with
    | true => simp
    | false =>
      simpa using findAccessibilityTreeNodeInList_eq_find? cs p
termination_by sizeOf tree

theorem findAccessibilityTreeNodeInList_eq_find? (l : List AXNode) (p : AXNode → Bool) :
    findAccessibilityTreeNodeInList l p = (preorderList l).find? p := by
  match l with
  | [] => rw [findAccessibilityTreeNodeInList, preorderList]; rfl
  | child :: rest =>
    rw [findAccessibilityTreeNodeInList, preorderList, List.find?_append,
      findAccessibilityTreeNode_eq_find? child p,
      findAccessibilityTreeNodeInList_eq_find? rest p]
    cases (preorder child).find? p <;> rfl
termination_by sizeOf l

end

/-- C3: for every accessibility tree and every predicate,
`findAccessibilityTreeNode` returns exactly the first node of the
pre-order (node before children, children in document order) depth-first
listing that satisfies the predicate, and returns `none` (JS `undefined`)
when no node of the tree satisfies it. -/
theorem claim_C3_preorder_search (tree : AXNode) (p : AXNode → Bool) :
    findAccessibilityTreeNode tree p = (preorder tree).find? p ∧
    ((∀ n ∈ preorder tree, p n = false) → findAccessibilityTreeNode tree p = none) := by
  refine ⟨findAccessibilityTreeNode_eq_find? tree p, fun h => ?_⟩
  rw [findAccessibilityTreeNode_eq_find? tree p]
  exact List.find?_eq_none.mpr fun x hx => by simp [h x hx]

theorem claim_C3_witness :
    findAccessibilityTreeNode (AXNode.mk "text" (some "hello") []) isMediaPreviewButton = none :=
  (claim_C3_preorder_search (AXNode.mk "text" (some "hello") []) isMediaPreviewButton).2
    (by decide)

/-- C6: for the currently displayed media element, a truthy direct `src`
is recorded as-is; with a falsy direct `src` and a nested `source`
element, the nested element's `src` is recorded; with neither, the walker
throws "Cannot infer image or video source URL.", aborting the loop with
only the previously collected sources (the remaining items of the
carousel are never visited). -/
theorem claim_C6_media_source_resolution (m : MediaElem) :
    (m.src ≠ "" → inferMediaSrc m = Except.ok m.src) ∧
    (m.src = "" → ∀ s, m.sourceChild = some s → inferMediaSrc m = Except.ok s) ∧
    (m.src = "" → m.sourceChild = none →
      inferMediaSrc m = Except.error "Cannot infer image or video source URL." ∧
      ∀ (lb : Lightbox) (fuel clicks : Nat) (acc : List String),
        lb.mediaAt clicks = some m → 0 < fuel →
        walkLoop lb fuel clicks acc =
          WalkResult.err "Cannot infer image or video source URL." acc) := by
  refine ⟨fun h => by simp [inferMediaSrc, h], fun h s hs => by simp [inferMediaSrc, h, hs],
    fun h hn => ?_⟩
  have herr : inferMediaSrc m = Except.error "Cannot infer image or video source URL." := by
    simp [inferMediaSrc, h, hn]
  refine ⟨herr, fun lb fuel clicks acc hmedia hfuel => ?_⟩
  match fuel, hfuel with
  | f + 1, _ => simp [walkLoop, hmedia, herr]

theorem claim_C6_witness :
    inferMediaSrc ⟨"https://x/img.jpg", none⟩ = Except.ok "https://x/img.jpg" ∧
    inferMediaSrc ⟨"", some "https://x/vid.mp4"⟩ = Except.ok "https://x/vid.mp4" ∧
    walkLoop ⟨["NavigateRight"], fun _ => some ⟨"", none⟩, fun _ => false⟩ 3 0 ["prev"] =
      WalkResult.err "Cannot infer image or video source URL." ["prev"] :=
  ⟨(claim_C6_media_source_resolution ⟨"https://x/img.jpg", none⟩).1 (by decide),
   (claim_C6_media_source_resolution ⟨"", some "https://x/vid.mp4"⟩).2.1 rfl _ rfl,
   ((claim_C6_media_source_resolution ⟨"", none⟩).2.2 rfl rfl).2 _ 3 0 ["prev"] rfl (by decide)⟩

/-- C7: when no node of the post's accessibility snapshot is a
button-role node whose accessible name matches one of the fixed media
extensions, `scrapePostForImages` returns normally with the empty
`mediaSources` list and zero clicks — the lightbox is never consulted,
whatever it holds. -/
theorem claim_C7_no_preview_is_empty (page : PostPage) (snap : AXNode) (fuel : Nat)
    (hsnap : page.snapshot = some snap)
    (hnone : ∀ n ∈ preorder snap, isMediaPreviewButton n = false) :
    scrapePostForImages page fuel = WalkResult.ok [] 0 := by
  have hfind : findAccessibilityTreeNode snap isMediaPreviewButton = none := by
    rw [findAccessibilityTreeNode_eq_find?]
    exact List.find?_eq_none.mpr fun x hx => by simp [hnone x hx]
  simp [scrapePostForImages, hsnap, hfind]

theorem claim_C7_witness :
    scrapePostForImages
      ⟨some (AXNode.mk "main" none [AXNode.mk "text" (some "hello") []]), none⟩ 5 =
      WalkResult.ok [] 0 :=
  claim_C7_no_preview_is_empty _ (AXNode.mk "main" none [AXNode.mk "text" (some "hello") []])
    5 rfl (by decide)

/-- C9: once a media preview was found and the lightbox queried, the
walker requires a nav-right button (by `innerHTML` match) among the
lightbox's buttons before reading any media: if none matches, it throws
"No right navigation button found in lightbox." with no source collected,
whatever the carousel holds — including a single-item carousel. -/
theorem claim_C9_nav_button_required (page : PostPage) (snap : AXNode) (lb : Lightbox)
    (fuel : Nat)
    (hsnap : page.snapshot = some snap)
    (hfound : (findAccessibilityTreeNode snap isMediaPreviewButton).isSome = true)
    (hlb : page.lightbox = some lb)
    (hnav : asyncFind lb.buttons matchesNavRight = none) :
    scrapePostForImages page fuel =
      WalkResult.err "No right navigation button found in lightbox." [] := by
  obtain ⟨node, hf⟩ := Option.isSome_iff_exists.mp hfound
  simp [scrapePostForImages, hsnap, hf, hlb, hnav]

theorem claim_C9_witness :
    scrapePostForImages
      ⟨some (AXNode.mk "button" (some "a.jpg") []), some noNavCarousel⟩ 5 =
      WalkResult.err "No right navigation button found in lightbox." [] :=
  claim_C9_nav_button_required _ (AXNode.mk "button" (some "a.jpg") []) noNavCarousel 5
    rfl (by decide) rfl (by decide)

theorem walkLoop_reaches_disabled (lb : Lightbox) :
    ∀ (d clicks : Nat) (acc : List String),
      (∀ i, i ≤ clicks + d →
        ∃ m src, lb.mediaAt i = some m ∧ inferMediaSrc m = Except.ok src) →
      lb.disabled (clicks + d + 1) = true →
      ∀ fuel, d + 1 ≤ fuel →
        ∃ srcs n, walkLoop lb fuel clicks acc = WalkResult.ok srcs n ∧
          n ≤ clicks + d + 1 := by
  intro d
  induction d with
  | zero =>
    intro clicks acc hmedia hdis fuel hfuel
    match fuel, hfuel with
    | f + 1, _ =>
      obtain ⟨m, src, hm, hsrc⟩ := hmedia clicks (by omega)
      refine ⟨acc ++ [src], clicks + 1, ?_, by omega⟩
      simp [walkLoop, hm, hsrc, show lb.disabled (clicks + 1) = true from hdis]
  | succ d ih =>
    intro clicks acc hmedia hdis fuel hfuel
    match fuel, hfuel with
    | f + 1, hfuel =>
      obtain ⟨m, src, hm, hsrc⟩ := hmedia clicks (by omega)
      cases hstop : lb.disabled (clicks + 1) with
      | true =>
        refine ⟨acc ++ [src], clicks + 1, ?_, by omega⟩
        simp [walkLoop, hm, hsrc, hstop]
      | false =>
        obtain ⟨srcs, n, heq, hn⟩ :=
          ih (clicks + 1) (acc ++ [src])
            (fun i hi => hmedia i (by omega))
            (by have : clicks + 1 + d + 1 = clicks + (d + 1) + 1 := by omega
                rw [this]; exact hdis)
            f (by omega)
        refine ⟨srcs, n, ?_, by omega⟩
        simp [walkLoop, hm, hsrc, hstop, heq]

/-- C8: the loop's sole termination condition is the nav control reporting
disabled. First part: whenever the control reports disabled after `k + 1`
clicks (and every media element up to that point resolves), the loop
returns normally once given at least `k + 1` fuel, with at most `k + 1`
activations. Second part: against a control that never reports disabled,
the loop exhausts any amount of fuel without returning — the fuel-indexed
image of non-termination; the code has no iteration bound or timeout. -/
theorem claim_C8_sole_termination_condition :
    (∀ (lb : Lightbox) (k : Nat),
      (∀ i, i ≤ k → ∃ m src, lb.mediaAt i = some m ∧ inferMediaSrc m = Except.ok src) →
      lb.disabled (k + 1) = true →
      ∀ fuel, k + 1 ≤ fuel →
        ∃ srcs n, walkLoop lb fuel 0 [] = WalkResult.ok srcs n ∧ n ≤ k + 1) ∧
    (∀ (lb : Lightbox),
      (∀ i, lb.disabled i = false) →
      (∀ i, ∃ m src, lb.mediaAt i = some m ∧ inferMediaSrc m = Except.ok src) →
      ∀ fuel clicks acc, walkLoop lb fuel clicks acc = WalkResult.hang) := by
  constructor
  · intro lb k hmedia hdis fuel hfuel
    have := walkLoop_reaches_disabled lb k 0 []
      (fun i hi => hmedia i (by omega)) (by simpa using hdis) fuel hfuel
    simpa using this
  · intro lb hdis hmedia fuel
    induction fuel with
    | zero => intro clicks acc; rfl
    | succ f ih =>
      intro clicks acc
      obtain ⟨m, src, hm, hsrc⟩ := hmedia clicks
      simp [walkLoop, hm, hsrc, hdis (clicks + 1), ih]

theorem claim_C8_witness :
    (∃ srcs n, walkLoop lbEnding 5 0 [] = WalkResult.ok srcs n ∧ n ≤ 2) ∧
    walkLoop lbNeverDisabled 9 4 ["x"] = WalkResult.hang :=
  ⟨claim_C8_sole_termination_condition.1 lbEnding 1
      (fun i _ => ⟨⟨"s.jpg", none⟩, "s.jpg", rfl, rfl⟩) (by decide) 5 (by decide),
   claim_C8_sole_termination_condition.2 lbNeverDisabled (fun i => rfl)
      (fun i => ⟨⟨"s.jpg", none⟩, "s.jpg", rfl, rfl⟩) 9 4 ["x"]⟩

theorem inferMediaSrc_direct (s : String) (h : s ≠ "") :
    inferMediaSrc ⟨s, none⟩ = Except.ok s := by
  simp [inferMediaSrc, h]

theorem simpleCarousel_mediaAt (srcs : List String) (k : Nat) (h : k < srcs.length) :
    (simpleCarousel srcs).mediaAt k = some ⟨srcs[k], none⟩ := by
  have hmin : min k (srcs.length - 1) = k := by omega
  simp [simpleCarousel, hmin, List.getElem?_eq_getElem h]

theorem simpleCarousel_walkLoop (srcs : List String) (hne : ∀ s ∈ srcs, s ≠ "") :
    ∀ (r clicks : Nat) (acc : List String) (fuel : Nat),
      clicks + r + 2 = srcs.length → r + 1 ≤ fuel →
      walkLoop (simpleCarousel srcs) fuel clicks acc =
        WalkResult.ok (acc ++ (srcs.drop clicks).take (r + 1)) (clicks + r + 1) := by
  intro r
  induction r with
  | zero =>
    intro clicks acc fuel hlen hfuel
    match fuel, hfuel with
    | f + 1, _ =>
      have hclt : clicks < srcs.length := by omega
      have hsrc : srcs[clicks] ≠ "" := hne _ (List.getElem_mem hclt)
      have hdis : (simpleCarousel srcs).disabled (clicks + 1) = true := by
        simp [simpleCarousel]; omega
      have hdrop : (srcs.drop clicks).take 1 = [srcs[clicks]] := by
        rw [List.drop_eq_getElem_cons hclt]; rfl
      simp [walkLoop, simpleCarousel_mediaAt srcs clicks hclt,
        inferMediaSrc_direct _ hsrc, hdis, hdrop]
  | succ r ih =>
    intro clicks acc fuel hlen hfuel
    match fuel, hfuel with
    | f + 1, hfuel =>
      have hclt : clicks < srcs.length := by omega
      have hsrc : srcs[clicks] ≠ "" := hne _ (List.getElem_mem hclt)
      have hdis : (simpleCarousel srcs).disabled (clicks + 1) = false := by
        simp [simpleCarousel]; omega
      have h1 : clicks + 1 + r + 2 = srcs.length := by omega
      have h2 : r + 1 ≤ f := by omega
      have hrec := ih (clicks + 1) (acc ++ [srcs[clicks]]) f h1 h2
      have hdrop : (srcs.drop clicks).take (r + 2) =
          srcs[clicks] :: (srcs.drop (clicks + 1)).take (r + 1) := by
        rw [List.drop_eq_getElem_cons hclt, List.take_succ_cons]
      simp only [walkLoop, simpleCarousel_mediaAt srcs clicks hclt,
        inferMediaSrc_direct _ hsrc, hdis, Bool.false_eq_true, if_false, hrec, hdrop]
      have harith : clicks + 1 + r + 1 = clicks + (r + 1) + 1 := by omega
      rw [harith]
      simp

/-- C1 counterexample: on the two-item carousel whose nav-right control
reports disabled exactly when the last item is displayed, the walker
collects one source with one activation — not the two sources and two
activations the claim requires. -/
theorem claim_C1_counterexample :
    scrapePostForImages (simplePostPage ["a", "b"]) 10 = WalkResult.ok ["a"] 1 ∧
    scrapePostForImages (simplePostPage ["a", "b"]) 10 ≠ WalkResult.ok ["a", "b"] 2 := by
  constructor <;> decide

/-- C1 as amended: for a carousel of N nonempty source URLs (N ≥ 1) whose
nav-right control reports disabled exactly when the last item is
displayed, `scrapePostForImages` appends exactly `max 1 (N - 1)` source
URLs — the first `max 1 (N - 1)` items in presentation order — performs
exactly `max 1 (N - 1)` navigate-right activations, and terminates at the
first disabled report; for N ≥ 2 the last item's source is never
collected. -/
theorem claim_C1_walker_count (srcs : List String)
    (hne : srcs ≠ []) (hok : ∀ s ∈ srcs, s ≠ "")
    (fuel : Nat) (hfuel : srcs.length ≤ fuel) :
    scrapePostForImages (simplePostPage srcs) fuel =
      WalkResult.ok (srcs.take (max 1 (srcs.length - 1))) (max 1 (srcs.length - 1)) := by
  have hrun : scrapePostForImages (simplePostPage srcs) fuel =
      walkLoop (simpleCarousel srcs) fuel 0 [] := rfl
  rw [hrun]
  match srcs, hne with
  | [s], _ =>
    match fuel, hfuel with
    | f + 1, _ =>
      have hs : s ≠ "" := hok s (by simp)
      simp [walkLoop, simpleCarousel, inferMediaSrc_direct _ hs]
  | s1 :: s2 :: rest, _ =>
    have := simpleCarousel_walkLoop (s1 :: s2 :: rest) hok
      ((s1 :: s2 :: rest).length - 2) 0 [] fuel
      (by simp only [List.length_cons]; omega)
      (by simp only [List.length_cons] at hfuel ⊢; omega)
    rw [this]
    have hmax : max 1 ((s1 :: s2 :: rest).length - 1) = (s1 :: s2 :: rest).length - 1 := by
      simp only [List.length_cons]; omega
    have harith : 0 + ((s1 :: s2 :: rest).length - 2) + 1 = (s1 :: s2 :: rest).length - 1 := by
      simp only [List.length_cons]; omega
    have htake : (s1 :: s2 :: rest).length - 2 + 1 = (s1 :: s2 :: rest).length - 1 := by
      simp only [List.length_cons]; omega
    simp only [List.drop_zero, List.nil_append, harith, htake, hmax]

theorem claim_C1_witness :
    scrapePostForImages (simplePostPage ["a", "b", "c"]) 3 = WalkResult.ok ["a", "b"] 2 :=
  claim_C1_walker_count ["a", "b", "c"] (by decide) (by decide) 3 (by decide)

/-- C2 counterexample: with a two-post corpus whose first post's walk
throws, the single try/catch around the whole loop stops the run: the
second post — which would succeed — is never walked and its sources are
never collected, so not all K posts are processed. -/
theorem claim_C2_counterexample :
    runPosts [⟨Except.error "boom", Except.ok ()⟩, ⟨Except.ok ["x"], Except.ok ()⟩] 0 =
      ([Ev.walk 0], [], some "boom") ∧
    Ev.walk 1 ∉
      (runPosts [⟨Except.error "boom", Except.ok ()⟩, ⟨Except.ok ["x"], Except.ok ()⟩] 0).1 := by
  exact ⟨rfl, by decide⟩

/-- C2 as amended: an exception in one post's walk is caught and logged at
the run boundary, not per post: the posts before the failing one are fully
processed (walk then download each, sources collected), the failing post
is walked only, every later post's work is abandoned entirely, and the run
ends with exit status 1. -/
theorem claim_C2_run_aborts_on_failure (pre rest : List PostSpec) (p : PostSpec) (e : String)
    (hpre : ∀ q ∈ pre, q.scrape.isOk = true ∧ q.download.isOk = true)
    (hp : p.scrape = Except.error e) :
    (∀ idx, runPosts (pre ++ p :: rest) idx =
      (interleavedTrace idx pre.length ++ [Ev.walk (idx + pre.length)],
       collectedSources pre, some e)) ∧
    (mainModel (pre ++ p :: rest)).2.2 = 1 := by
  have hmain : ∀ (pre2 : List PostSpec),
      (∀ q ∈ pre2, q.scrape.isOk = true ∧ q.download.isOk = true) →
      ∀ idx, runPosts (pre2 ++ p :: rest) idx =
        (interleavedTrace idx pre2.length ++ [Ev.walk (idx + pre2.length)],
         collectedSources pre2, some e) := by
    intro pre2
    induction pre2 with
    | nil => intro _ idx; simp [runPosts, hp, interleavedTrace, collectedSources]
    | cons q qs ih =>
      intro hq idx
      obtain ⟨h1, h2⟩ := hq q (by simp)
      cases hs : q.scrape with
      | error e2 => rw [hs] at h1; simp [Except.isOk, Except.toBool] at h1
      | ok s =>
        cases hd : q.download with
        | error e2 => rw [hd] at h2; simp [Except.isOk, Except.toBool] at h2
        | ok u =>
          have ihx := ih (fun q2 hq2 => hq q2 (by simp [hq2])) (idx + 1)
          have harith : idx + 1 + qs.length = idx + (qs.length + 1) := by omega
          simp [runPosts, hs, hd, interleavedTrace, collectedSources, ihx, harith]
  refine ⟨hmain pre hpre, ?_⟩
  simp [mainModel, hmain pre hpre 0]

theorem claim_C2_witness :
    runPosts [⟨Except.ok ["x"], Except.ok ()⟩, ⟨Except.error "boom", Except.ok ()⟩,
        ⟨Except.ok ["y"], Except.ok ()⟩] 0 =
      ([Ev.walk 0, Ev.download 0, Ev.walk 1], [["x"]], some "boom") ∧
    (mainModel [⟨Except.ok ["x"], Except.ok ()⟩, ⟨Except.error "boom", Except.ok ()⟩,
        ⟨Except.ok ["y"], Except.ok ()⟩]).2.2 = 1 :=
  ⟨(claim_C2_run_aborts_on_failure [⟨Except.ok ["x"], Except.ok ()⟩]
      [⟨Except.ok ["y"], Except.ok ()⟩] ⟨Except.error "boom", Except.ok ()⟩ "boom"
      (by decide) rfl).1 0,
   (claim_C2_run_aborts_on_failure [⟨Except.ok ["x"], Except.ok ()⟩]
      [⟨Except.ok ["y"], Except.ok ()⟩] ⟨Except.error "boom", Except.ok ()⟩ "boom"
      (by decide) rfl).2⟩

/-- C4 counterexample: with two successful posts, the run's event trace is
walk 0, download 0, walk 1, download 1 — a download of the first post
precedes the walk of the second, so the run is not two-phase. -/
theorem claim_C4_counterexample :
    (runPosts [⟨Except.ok ["x"], Except.ok ()⟩, ⟨Except.ok ["y"], Except.ok ()⟩] 0).1 =
      [Ev.walk 0, Ev.download 0, Ev.walk 1, Ev.download 1] ∧
    isTwoPhase
      (runPosts [⟨Except.ok ["x"], Except.ok ()⟩, ⟨Except.ok ["y"], Except.ok ()⟩] 0).1 =
      false := by
  exact ⟨rfl, rfl⟩

/-- C4 as amended: the orchestrator interleaves the phases per post — for
each descriptor in corpus order its walk is immediately followed by its
own download before the next descriptor's walk begins, so on an all-
successful corpus the trace is exactly walk 0, download 0, walk 1,
download 1, and so on. -/
theorem claim_C4_interleaved_phases (posts : List PostSpec)
    (h : ∀ q ∈ posts, q.scrape.isOk = true ∧ q.download.isOk = true) :
    ∀ idx, (runPosts posts idx).1 = interleavedTrace idx posts.length := by
  revert h
  induction posts with
  | nil => intro _ idx; rfl
  | cons q qs ih =>
    intro h idx
    obtain ⟨h1, h2⟩ := h q (by simp)
    cases hs : q.scrape with
    | error e2 => rw [hs] at h1; simp [Except.isOk, Except.toBool] at h1
    | ok s =>
      cases hd : q.download with
      | error e2 => rw [hd] at h2; simp [Except.isOk, Except.toBool] at h2
      | ok u =>
        have ihx := ih (fun q2 hq2 => h q2 (by simp [hq2])) (idx + 1)
        simp [runPosts, hs, hd, interleavedTrace, ihx]

theorem claim_C4_witness :
    (runPosts [⟨Except.ok ["x"], Except.ok ()⟩, ⟨Except.ok ["y"], Except.ok ()⟩] 4).1 =
      [Ev.walk 4, Ev.download 4, Ev.walk 5, Ev.download 5] :=
  claim_C4_interleaved_phases
    [⟨Except.ok ["x"], Except.ok ()⟩, ⟨Except.ok ["y"], Except.ok ()⟩] (by decide) 4

theorem list_map_self_of_mem {α : Type} (l : List α) (f : α → α)
    (h : ∀ a ∈ l, f a = a) : l.map f = l := by
  induction l with
  | nil => rfl
  | cons a rest ih =>
    simp only [List.map_cons, h a (by simp)]
    rw [ih fun b hb => h b (by simp [hb])]

theorem head?_dropWhile_false (p : Char → Bool) (l : List Char) (a : Char)
    (h : (l.dropWhile p).head? = some a) : p a = false := by
  induction l with
  | nil => simp [List.dropWhile] at h
  | cons c rest ih =>
    rw [List.dropWhile_cons] at h
    cases hp : p c with
    | true => rw [hp] at h; simp at h; exact ih h
    | false => rw [hp] at h; simp at h; rw [h] at hp; exact hp

/-- C5 counterexample: for the subject `a?`, which ends in a reserved
character, the computed directory name ends in a space — the trailing
space trim runs before the reserved-character replacement, so the name
has trailing whitespace. -/
theorem claim_C5_counterexample :
    groupName "2024-05-01" "123" "a?" = "2024-05-01 123 a " ∧
    (groupName "2024-05-01" "123" "a?").data.getLast? = some ' ' := by
  exact ⟨rfl, rfl⟩

/-- C5 as amended: the directory name is the composition of the ISO date,
the message id and the subject with trailing spaces trimmed first and each
reserved character then replaced by a space; the result never contains a
reserved character, and it has no trailing space whenever the composed
string is free of reserved characters — but trimming precedes replacement,
so a subject ending in a reserved character leaves trailing whitespace. -/
theorem claim_C5_sanitized_group_name (isoDateOnly messageId subject : String) :
    (∀ c ∈ (groupName isoDateOnly messageId subject).data, c ∉ DISALLOWED_PATH_CHARS) ∧
    ((∀ c ∈ (isoDateOnly ++ " " ++ messageId ++ " " ++ subject).data,
        c ∉ DISALLOWED_PATH_CHARS) →
      (groupName isoDateOnly messageId subject).data.getLast? ≠ some ' ') := by
  have hdata : (groupName isoDateOnly messageId subject).data =
      (trimTrailingSpaces (isoDateOnly ++ " " ++ messageId ++ " " ++ subject)).data.map
        (fun c => if c ∈ DISALLOWED_PATH_CHARS then ' ' else c) := rfl
  constructor
  · intro c hc
    rw [hdata] at hc
    obtain ⟨a, ha, hfa⟩ := List.mem_map.mp hc
    by_cases h : a ∈ DISALLOWED_PATH_CHARS
    · rw [if_pos h] at hfa
      rw [← hfa]
      decide
    · rw [if_neg h] at hfa
      rw [← hfa]
      exact h
  · intro hno
    have hsub : ∀ c ∈ (trimTrailingSpaces
        (isoDateOnly ++ " " ++ messageId ++ " " ++ subject)).data,
        c ∈ (isoDateOnly ++ " " ++ messageId ++ " " ++ subject).data := by
      intro c hc
      have hc2 : c ∈ (isoDateOnly ++ " " ++ messageId ++ " " ++ subject).data.reverse.dropWhile
          (fun ch => ch == ' ') := List.mem_reverse.mp hc
      have hc3 := (List.dropWhile_sublist (fun ch : Char => ch == ' ')).subset hc2
      exact List.mem_reverse.mp hc3
    have hid : (trimTrailingSpaces (isoDateOnly ++ " " ++ messageId ++ " " ++ subject)).data.map
        (fun c => if c ∈ DISALLOWED_PATH_CHARS then ' ' else c) =
        (trimTrailingSpaces (isoDateOnly ++ " " ++ messageId ++ " " ++ subject)).data := by
      apply list_map_self_of_mem
      intro a ha
      rw [if_neg (hno a (hsub a ha))]
    rw [hdata, hid]
    intro hsome
    have hhead : ((isoDateOnly ++ " " ++ messageId ++ " " ++ subject).data.reverse.dropWhile
        (fun ch => ch == ' ')).head? = some ' ' := by
      rw [← List.getLast?_reverse]
      exact hsome
    have := head?_dropWhile_false (fun ch => ch == ' ') _ ' ' hhead
    simp at this

theorem claim_C5_witness :
    (∀ c ∈ (groupName "2024-05-01" "123" "Groep 4").data, c ∉ DISALLOWED_PATH_CHARS) ∧
    (groupName "2024-05-01" "123" "Groep 4").data.getLast? ≠ some ' ' :=
  ⟨(claim_C5_sanitized_group_name "2024-05-01" "123" "Groep 4").1,
   (claim_C5_sanitized_group_name "2024-05-01" "123" "Groep 4").2 (by decide)⟩

/-- C10 counterexample: when the target path already exists, the events of
the loop body still contain the HTTP GET — the network download is issued
before the existence check and is not skipped; only the file write is. -/
theorem claim_C10_counterexample :
    (downloadOne (fun _ => "NEW") (fun u => u) "out" ⟨[("out/c.jpg", "OLD")]⟩ "/p/c.jpg").2 =
      [DlEv.httpGet "/p/c.jpg", DlEv.exifBackfill "out/c.jpg"] ∧
    DlEv.httpGet "/p/c.jpg" ∈
      (downloadOne (fun _ => "NEW") (fun u => u) "out" ⟨[("out/c.jpg", "OLD")]⟩ "/p/c.jpg").2 := by
  exact ⟨rfl, by decide⟩

/-- C10 as amended: for a media source whose target path already exists,
the HTTP GET is still issued (its response discarded), the write is
skipped so the file system — including that file's contents — is
unchanged, and only the EXIF backfill is applied; consequently, over a
whole run of the download loop, any path existing beforehand keeps its
contents, so re-running never overwrites previously downloaded files. -/
theorem claim_C10_existing_files_preserved :
    (∀ (fetch urlPathname : String → String) (outputDir : String) (fs : FileSystem)
        (src : String),
      fsExists fs (outputDir ++ "/" ++ basename (urlPathname src)) = true →
      downloadOne fetch urlPathname outputDir fs src =
        (fs, [DlEv.httpGet src,
              DlEv.exifBackfill (outputDir ++ "/" ++ basename (urlPathname src))])) ∧
    (∀ (fetch urlPathname : String → String) (outputDir : String) (fs : FileSystem)
        (srcs : List String) (p c : String),
      fsFind fs.files p = some c →
      fsFind (downloadImagesLoop fetch urlPathname outputDir fs srcs).1.files p = some c) := by
  constructor
  · intro fetch urlPathname outputDir fs src h
    simp [downloadOne, h]
  · intro fetch urlPathname outputDir fs srcs
    induction srcs generalizing fs with
    | nil => intro p c h; simpa [downloadImagesLoop] using h
    | cons src rest ih =>
      intro p c h
      show fsFind (downloadImagesLoop fetch urlPathname outputDir
        (downloadOne fetch urlPathname outputDir fs src).1 rest).1.files p = some c
      apply ih
      cases hex : fsExists fs (outputDir ++ "/" ++ basename (urlPathname src)) with
      | true => simpa [downloadOne, hex] using h
      | false =>
        have hne : (outputDir ++ "/" ++ basename (urlPathname src)) ≠ p := by
          intro he
          unfold fsExists at hex
          rw [he, h] at hex
          simp at hex
        simpa [downloadOne, hex, fsFind, hne] using h

theorem claim_C10_witness :
    downloadOne (fun _ => "NEW") (fun u => u) "out2" ⟨[("out2/d.jpg", "OLD")]⟩ "/q/d.jpg" =
      (⟨[("out2/d.jpg", "OLD")]⟩,
       [DlEv.httpGet "/q/d.jpg", DlEv.exifBackfill "out2/d.jpg"]) ∧
    fsFind (downloadImagesLoop (fun _ => "NEW") (fun u => u) "out2"
        ⟨[("out2/d.jpg", "OLD")]⟩ ["/q/d.jpg", "/q/e.jpg"]).1.files "out2/d.jpg" =
      some "OLD" :=
  ⟨claim_C10_existing_files_preserved.1 (fun _ => "NEW") (fun u => u) "out2"
      ⟨[("out2/d.jpg", "OLD")]⟩ "/q/d.jpg" (by decide),
   claim_C10_existing_files_preserved.2 (fun _ => "NEW") (fun u => u) "out2"
      ⟨[("out2/d.jpg", "OLD")]⟩ ["/q/d.jpg", "/q/e.jpg"] "out2/d.jpg" "OLD" rfl⟩
